import Mathlib

/-!
Shallow embedding of the `rust-mongodb-crud` note service.

The embedding follows the source files `src/db.rs`, `src/error.rs` and
`src/handler.rs`. The MongoDB store is modelled as an explicit state
(a list of note documents plus a flag recording whether the unique
`title` index has been created), and each data-access operation of
`impl DB` becomes a Lean function that threads this state. Transport
failures of the driver (a failing `find`, `insert_one`, `create_index`,
`delete_one`, `find_one_and_update`, or a cursor yielding an error item)
are injected through an explicit environment `Env`, as is the wall-clock
time `Utc::now()` and the `ObjectId` the driver generates for an insert.
Rust panics (`unwrap` / `expect` on fallible values) are a distinct
outcome constructor `fault`, separate from the classified `Error` values
that the code returns and `handle_rejection` recovers.

The repository's `model.rs`, `response.rs` and `schema.rs` are not part
of the available sources; their shapes are reconstructed from their uses
in `db.rs` / `handler.rs` and from the specification (marked
"Modelled from the spec:" below).
-/

namespace NotesApp

/-- JSON values, the result of serde serialization of the response types. -/
inductive Json where
  | null
  | str (s : String)
  | num (n : Nat)
  | bool (b : Bool)
  | arr (elems : List Json)
  | obj (fields : List (String × Json))
deriving Repr

/-- True for an ASCII hexadecimal digit, either case. -/
def isHexDigit (c : Char) : Bool :=
  c.isDigit || ('a' ≤ c && c ≤ 'f') || ('A' ≤ c && c ≤ 'F')

/-- A BSON `ObjectId`, modelled by its canonical (lower-case) 24-character
hex string, which is what `ObjectId::to_hex` produces. -/
structure ObjectId where
  hex : String
deriving Repr, DecidableEq

/-- ASCII lower-casing of one character. -/
def charToLower (c : Char) : Char :=
  if 'A' ≤ c && c ≤ 'Z' then Char.ofNat (c.toNat + 32) else c

/-- ASCII lower-casing of a string, character by character. -/
def strToLower (s : String) : String := ⟨s.data.map charToLower⟩

/-- `ObjectId::from_str`: succeeds exactly on a 24-character hex string
(either case; the parsed value is normalised to lower case, as the byte
representation forgets the case of the input). -/
def ObjectId.fromStr (s : String) : Option ObjectId :=
  if s.length = 24 && s.data.all isHexDigit then some ⟨strToLower s⟩ else none

/-- Modelled from the spec: `model.rs` is absent from the sources; the
field set and optionality follow `DB::doc_to_note` in `db.rs` (which
reads `id`, `title`, `content`, `category.unwrap()`, `published.unwrap()`,
`createdAt`, `updatedAt`) and the spec's Note Record. Timestamps are
modelled as natural numbers. -/
structure NoteModel where
  id : ObjectId
  title : String
  content : String
  category : Option String
  published : Option Bool
  createdAt : Nat
  updatedAt : Nat
deriving Repr, DecidableEq

/-- The error taxonomy of `error.rs` (`enum Error`). The underlying
driver causes carry no behavioural content in `handle_rejection` except
for `InvalidIDError`, whose payload (the offending id) becomes the
response message; only that payload is kept. -/
inductive Error where
  | MongoError
  | MongoQueryError
  | MongoDuplicateError
  | MongoSerializeBsonError
  | MongoDataError
  | InvalidIDError (id : String)
deriving Repr, DecidableEq

/-- Outcome of a data-access operation: a returned value, a classified
`Error` (the `Result::Err` path), or a Rust panic (`unwrap`/`expect` on a
fallible value), which no handler recovers. -/
inductive DbOutcome (α : Type) where
  | ok (a : α)
  | err (e : Error)
  | fault (msg : String)
deriving Repr, DecidableEq

/-- Modelled from the spec: `response.rs` is absent; shape from the
spec's `NoteView` and the construction in `DB::doc_to_note`. -/
structure NoteResponse where
  id : String
  title : String
  content : String
  category : String
  published : Bool
  createdAt : Nat
  updatedAt : Nat
deriving Repr, DecidableEq

/-- Modelled from the spec: wrapper `{ note }` inside a single-note envelope. -/
structure NoteData where
  note : NoteResponse
deriving Repr, DecidableEq

/-- Modelled from the spec: single-note envelope `{status, data: {note}}`. -/
structure SingleNoteResponse where
  status : String
  data : NoteData
deriving Repr, DecidableEq

/-- Modelled from the spec: list envelope `{status, results, notes}`. -/
structure NoteListResponse where
  status : String
  results : Nat
  notes : List NoteResponse
deriving Repr, DecidableEq

/-- Modelled from the spec: generic envelope `{status, message}`. -/
structure GenericResponse where
  status : String
  message : String
deriving Repr, DecidableEq

/-- Modelled from the spec: create-shape — `title` and `content`
required, `category` and `published` optional; serde serialization omits
absent optional fields. -/
structure CreateNoteSchema where
  title : String
  content : String
  category : Option String
  published : Option Bool
deriving Repr, DecidableEq

/-- Modelled from the spec: update-shape — all fields optional, merge
semantics; serde serialization omits absent fields, so the `$set`
document contains exactly the present fields. -/
structure UpdateNoteSchema where
  title : Option String
  content : Option String
  category : Option String
  published : Option Bool
deriving Repr, DecidableEq

/-- Modelled from the spec: list-filter shape with optional `page` and
`limit` query parameters. -/
structure FilterOptions where
  page : Option Nat
  limit : Option Nat
deriving Repr, DecidableEq

/-- The state of the MongoDB collection: the stored documents, plus
whether the unique index on `title` exists (it is created lazily by
`DB::create_note`, not at initialization). -/
structure StoreState where
  docs : List NoteModel
  hasTitleIndex : Bool
deriving Repr, DecidableEq

/-- Environment of a data-access call: the current time (`Utc::now()`),
the `ObjectId` the driver generates for an inserted document, and
injection flags for driver/transport failures. `lookupMisses` models the
post-insert `find_one` in `create_note` observing a store from which the
new document is already gone (e.g. a concurrent delete; requests run
concurrently per the design). -/
structure Env where
  now : Nat
  freshId : ObjectId
  createIndexFails : Bool
  insertFails : Bool
  findFails : Bool
  updateFails : Bool
  deleteFails : Bool
  cursorItemFails : Bool
  lookupMisses : Bool
deriving Repr, DecidableEq

/-- `DB::doc_to_note`: builds a `NoteResponse` from a `NoteModel`;
`note.category.unwrap()` and `note.published.unwrap()` panic when the
stored document lacks those fields. -/
def doc_to_note (note : NoteModel) : DbOutcome NoteResponse :=
  match note.category, note.published with
  | some c, some p =>
      .ok { id := note.id.hex, title := note.title, content := note.content,
            category := c, published := p,
            createdAt := note.createdAt, updatedAt := note.updatedAt }
  | _, _ => .fault "Option unwrap in doc_to_note"

/-- MongoDB `find` with `skip` and `limit` options: skip the first
`skip` documents, then return up to `|limit|` documents (`limit = 0`
means no limit; a negative limit behaves like its absolute value with a
single batch). -/
def mongoFind (docs : List NoteModel) (skip : Nat) (limit : Int) : List NoteModel :=
  let afterSkip := docs.drop skip
  if limit = 0 then afterSkip else afterSkip.take limit.natAbs

/-- The cursor loop of `DB::fetch_notes`: convert each document via
`doc_to_note`, propagating the first panic. -/
def notesToResponses : List NoteModel → DbOutcome (List NoteResponse)
  | [] => .ok []
  | m :: ms =>
      match doc_to_note m with
      | .ok r =>
          match notesToResponses ms with
          | .ok rs => .ok (r :: rs)
          | .err e => .err e
          | .fault f => .fault f
      | .err e => .err e
      | .fault f => .fault f

/-- `DB::fetch_notes(limit, page)`: builds find options with
`skip = u64::try_from((page - 1) * limit).unwrap()` (a panic when the
product is negative), runs `find` (`MongoQueryError` on failure), and
drains the cursor (`doc.unwrap()` panics on an error item). Read-only:
the store state is not changed. -/
def fetch_notes (limit page : Int) (env : Env) (s : StoreState) :
    DbOutcome NoteListResponse :=
  let skipI : Int := (page - 1) * limit
  if skipI < 0 then .fault "u64::try_from on negative skip"
  else if env.findFails then .err .MongoQueryError
  else if env.cursorItemFails then .fault "cursor item unwrap"
  else
    match notesToResponses (mongoFind s.docs skipI.toNat limit) with
    | .ok rs => .ok { status := "success", results := rs.length, notes := rs }
    | .err e => .err e
    | .fault f => .fault f

/-- The document `create_note` inserts: the base
`{createdAt, updatedAt, published (default), category (default)}`
extended with the serialized body, whose present fields overwrite — the
net effect is the body's fields with `getD` defaults, both timestamps at
the current time, and the driver-generated `_id`. -/
def newDocOf (body : CreateNoteSchema) (env : Env) : NoteModel :=
  { id := env.freshId, title := body.title, content := body.content,
    category := some (body.category.getD ""),
    published := some (body.published.getD false),
    createdAt := env.now, updatedAt := env.now }

/-- The post-insert lookup of `create_note` (`find_one` by the new id,
then `doc_to_note` under two `unwrap`s): read-only, the store state is
not changed. -/
def create_lookup (env : Env) (docs : List NoteModel) :
    DbOutcome (Option SingleNoteResponse) :=
  if env.findFails then .err .MongoQueryError
  else if env.lookupMisses then .ok none
  else
    match docs.find? (fun d => d.id == env.freshId) with
    | none => .ok none
    | some m =>
        match doc_to_note m with
        | .ok nr => .ok (some { status := "success", data := { note := nr } })
        | _ => .fault "Option unwrap in doc_to_note"

/-- `DB::create_note`: applies the defaults `published = false`,
`category = ""`, ensures the unique `title` index (panics via
`expect("error creating index!")` if index creation fails), builds the
dated document (see `newDocOf`), inserts it (a duplicate key — the
unique `title` index or the `_id` index — yields `MongoDuplicateError`,
recognized by the E11000 message signature; any other insert failure
`MongoQueryError`), then re-reads the inserted id (see `create_lookup`);
an absent lookup result returns `Ok(None)`. -/
def create_note (body : CreateNoteSchema) (env : Env) (s : StoreState) :
    DbOutcome (Option SingleNoteResponse) × StoreState :=
  if env.createIndexFails then (.fault "error creating index!", s)
  else
    let s1 : StoreState := { s with hasTitleIndex := true }
    if s1.docs.any (fun d => d.title == body.title) ||
       s1.docs.any (fun d => d.id == env.freshId) then
      (.err .MongoDuplicateError, s1)
    else if env.insertFails then (.err .MongoQueryError, s1)
    else
      let s2 : StoreState := { s1 with docs := s1.docs ++ [newDocOf body env] }
      (create_lookup env s2.docs, s2)

/-- `DB::get_note(id)`: parse the id (`InvalidIDError` on failure,
before any store access), then `find_one` by `_id`; an absent document
is `Ok(None)`. The second component counts the store queries issued. -/
def get_note (id : String) (env : Env) (s : StoreState) :
    DbOutcome (Option SingleNoteResponse) × Nat :=
  match ObjectId.fromStr id with
  | none => (.err (.InvalidIDError id), 0)
  | some oid =>
      if env.findFails then (.err .MongoQueryError, 1)
      else
        match s.docs.find? (fun d => d.id == oid) with
        | none => (.ok none, 1)
        | some m =>
            match doc_to_note m with
            | .ok nr => (.ok (some { status := "success", data := { note := nr } }), 1)
            | _ => (.fault "Option unwrap in doc_to_note", 1)

/-- The `$set` merge of `DB::edit_note`: exactly the fields present in
the update-shape are overwritten; `_id` and the timestamps are not in
the `$set` document and stay untouched. -/
def applyUpdate (b : UpdateNoteSchema) (m : NoteModel) : NoteModel :=
  { m with
    title := b.title.getD m.title,
    content := b.content.getD m.content,
    category := match b.category with | some c => some c | none => m.category,
    published := match b.published with | some p => some p | none => m.published }

/-- Replace the first document whose `_id` matches (what
`find_one_and_update` touches). -/
def setFirst (oid : ObjectId) (m' : NoteModel) : List NoteModel → List NoteModel
  | [] => []
  | d :: ds => if d.id == oid then m' :: ds else d :: setFirst oid m' ds

/-- The envelope `edit_note` builds from the post-update document
(`doc_to_note` under an `unwrap`): read-only. -/
def edit_result (m' : NoteModel) : DbOutcome (Option SingleNoteResponse) :=
  match doc_to_note m' with
  | .ok nr => .ok (some { status := "success", data := { note := nr } })
  | _ => .fault "Option unwrap in doc_to_note"

/-- `DB::edit_note(id, body)`: parse the id (`InvalidIDError`), then
`find_one_and_update` with `$set` of the serialized body and
`ReturnDocument::After`. A driver failure — including the unique `title`
index rejecting an update that would duplicate another document's title —
is mapped to `MongoQueryError` (this arm, unlike `create_note`, does not
inspect the message for the duplicate-key signature). No matching
document yields `Ok(None)`. -/
def edit_note (id : String) (body : UpdateNoteSchema) (env : Env) (s : StoreState) :
    DbOutcome (Option SingleNoteResponse) × StoreState :=
  match ObjectId.fromStr id with
  | none => (.err (.InvalidIDError id), s)
  | some oid =>
      if env.updateFails then (.err .MongoQueryError, s)
      else
        match s.docs.find? (fun d => d.id == oid) with
        | none => (.ok none, s)
        | some m =>
            let m' := applyUpdate body m
            if s.hasTitleIndex &&
               s.docs.any (fun d => d.id != m.id && d.title == m'.title) then
              (.err .MongoQueryError, s)
            else
              (edit_result m', { s with docs := setFirst oid m' s.docs })

/-- `DB::delete_note(id)`: parse the id (`InvalidIDError`), then
`delete_one` by `_id` (`MongoQueryError` on driver failure);
`deleted_count == 0` yields `Ok(None)`, one deletion `Ok(Some(()))`. -/
def delete_note (id : String) (env : Env) (s : StoreState) :
    DbOutcome (Option Unit) × StoreState :=
  match ObjectId.fromStr id with
  | none => (.err (.InvalidIDError id), s)
  | some oid =>
      if env.deleteFails then (.err .MongoQueryError, s)
      else if s.docs.any (fun d => d.id == oid) then
        (.ok (some ()), { s with docs := s.docs.eraseP (fun d => d.id == oid) })
      else (.ok none, s)

/-- A warp `Rejection` as observed by `handle_rejection`: an unmatched
route, a body-deserialization failure, a rejected application `Error`, a
method-not-allowed, or anything else. -/
inductive Rejection where
  | notFoundRoute
  | bodyDeserializeError
  | appError (e : Error)
  | methodNotAllowed
  | other
deriving Repr, DecidableEq

/-- `handle_rejection` in `error.rs`: maps every rejection to an HTTP
status code together with the generic `{status, message}` envelope it
serializes. -/
def handle_rejection : Rejection → Nat × GenericResponse
  | .notFoundRoute => (404, { status := "failed", message := "Route does not exist on the server" })
  | .bodyDeserializeError => (400, { status := "failed", message := "Invalid Body" })
  | .appError e =>
      match e with
      | .MongoError => (500, { status := "fail", message := "MongoDB error" })
      | .MongoDuplicateError => (409, { status := "fail", message := "Duplicate key error" })
      | .MongoQueryError => (500, { status := "fail", message := "Error during mongodb query" })
      | .MongoSerializeBsonError => (500, { status := "fail", message := "Error seserializing BSON" })
      | .MongoDataError => (400, { status := "fail", message := "validation error" })
      | .InvalidIDError id => (400, { status := "fail", message := id })
  | .methodNotAllowed => (405, { status := "failed", message := "Method Not Allowed" })
  | .other => (500, { status := "error", message := "Internal Server Error" })

/-- Serialization of the response types to JSON. -/
def GenericResponse.toJson (g : GenericResponse) : Json :=
  .obj [("status", .str g.status), ("message", .str g.message)]

def NoteResponse.toJson (n : NoteResponse) : Json :=
  .obj [("id", .str n.id), ("title", .str n.title), ("content", .str n.content),
        ("category", .str n.category), ("published", .bool n.published),
        ("createdAt", .num n.createdAt), ("updatedAt", .num n.updatedAt)]

def SingleNoteResponse.toJson (r : SingleNoteResponse) : Json :=
  .obj [("status", .str r.status), ("data", .obj [("note", r.data.note.toJson)])]

def NoteListResponse.toJson (r : NoteListResponse) : Json :=
  .obj [("status", .str r.status), ("results", .num r.results),
        ("notes", .arr (r.notes.map NoteResponse.toJson))]

/-- serde: `Option` serializes as the JSON literal `null` when `None`
and transparently when `Some` (how `json(&note)` renders the create
handler's `Option<SingleNoteResponse>`). -/
def serializeOptSingle : Option SingleNoteResponse → Json
  | none => Json.null
  | some r => r.toJson

/-- What a handler produces once rejections are recovered by
`handle_rejection`: an HTTP reply, or a propagated panic. -/
inductive HandlerOutcome where
  | reply (code : Nat) (body : Json)
  | fault (msg : String)
deriving Repr

/-- Recover a rejection into its HTTP reply (warp's `.recover(handle_rejection)`). -/
def replyOfRejection (r : Rejection) : HandlerOutcome :=
  .reply (handle_rejection r).1 (handle_rejection r).2.toJson

/-- `create_note_handler`: replies 201 with the JSON of the returned
`Option<SingleNoteResponse>` — with no check that it is `Some`; errors
are rejected into `handle_rejection`. -/
def create_note_handler : DbOutcome (Option SingleNoteResponse) → HandlerOutcome
  | .ok o => .reply 201 (serializeOptSingle o)
  | .err e => replyOfRejection (.appError e)
  | .fault f => .fault f

/-- The not-found envelope the id handlers build. -/
def notFoundResponse (id : String) : GenericResponse :=
  { status := "fail", message := "Note with ID: " ++ id ++ " not found" }

/-- `get_note_handler`: 404 with a fail envelope when absent, 200 with
the single-note JSON when found. -/
def get_note_handler (id : String) :
    DbOutcome (Option SingleNoteResponse) → HandlerOutcome
  | .ok none => .reply 404 (notFoundResponse id).toJson
  | .ok (some r) => .reply 200 (serializeOptSingle (some r))
  | .err e => replyOfRejection (.appError e)
  | .fault f => .fault f

/-- `edit_note_handler`: same result mapping as `get_note_handler`. -/
def edit_note_handler (id : String) :
    DbOutcome (Option SingleNoteResponse) → HandlerOutcome
  | .ok none => .reply 404 (notFoundResponse id).toJson
  | .ok (some r) => .reply 200 (serializeOptSingle (some r))
  | .err e => replyOfRejection (.appError e)
  | .fault f => .fault f

/-- `delete_note_handler`: 404 with a fail envelope when nothing was
deleted, otherwise 204 with `json(&"")` (the serialization of the empty
string; HTTP transmits a 204 response without a body). -/
def delete_note_handler (id : String) : DbOutcome (Option Unit) → HandlerOutcome
  | .ok none => .reply 404 (notFoundResponse id).toJson
  | .ok (some _) => .reply 204 (Json.str "")
  | .err e => replyOfRejection (.appError e)
  | .fault f => .fault f

/-- `notes_list_handler`: defaults `limit` to 10 and `page` to 1, calls
`fetch_notes`, and replies 200 with the list envelope. -/
def notes_list_handler (opts : FilterOptions) (env : Env) (s : StoreState) :
    HandlerOutcome :=
  let limit : Int := (opts.limit.getD 10 : Nat)
  let page : Int := (opts.page.getD 1 : Nat)
  match fetch_notes limit page env s with
  | .ok r => .reply 200 r.toJson
  | .err e => replyOfRejection (.appError e)
  | .fault f => .fault f

/-- Every stored document carries its `category` and `published` fields
(true of every document the service itself writes). -/
def WellFormedDocs (docs : List NoteModel) : Bool :=
  docs.all (fun m => m.category.isSome && m.published.isSome)

/-- The store invariant: document ids are pairwise distinct (the `_id`
index), titles are pairwise distinct (the unique `title` index), and a
non-empty collection implies the `title` index exists (every insert goes
through `create_note`, which creates it first). -/
def StoreInv (s : StoreState) : Prop :=
  (s.docs.map (fun d => d.id)).Nodup ∧
  (s.docs.map (fun d => d.title)).Nodup ∧
  (s.docs ≠ [] → s.hasTitleIndex = true)

/-! ### Concrete objects used by the witness theorems -/

/-- A concrete stored note. -/
def wNoteA : NoteModel :=
  { id := ⟨"aaaaaaaaaaaaaaaaaaaaaaaa"⟩, title := "t", content := "c",
    category := some "a", published := some false, createdAt := 1, updatedAt := 5 }

/-- A concrete one-note store with the `title` index present. -/
def wState : StoreState := { docs := [wNoteA], hasTitleIndex := true }

/-- A concrete failure-free environment: time 100, fresh id `b…b`. -/
def wEnv : Env :=
  { now := 100, freshId := ⟨"bbbbbbbbbbbbbbbbbbbbbbbb"⟩,
    createIndexFails := false, insertFails := false, findFails := false,
    updateFails := false, deleteFails := false, cursorItemFails := false,
    lookupMisses := false }

/-- A well-formed note used to populate the pagination store. -/
def wNoteWF : NoteModel :=
  { id := ⟨"cccccccccccccccccccccccc"⟩, title := "p", content := "c",
    category := some "", published := some false, createdAt := 0, updatedAt := 0 }

/-- Fifteen stored notes, for the pagination boundary scenario. -/
def pageDocs : List NoteModel := List.replicate 15 wNoteWF

/-! ### Helper lemmas -/

/-- A list with no satisfying element has no `find?` result. -/
theorem find?_eq_none_of_forall {α} {p : α → Bool} {l : List α}
    (h : ∀ x ∈ l, p x = false) : l.find? p = none := by
  induction l with
  | nil => rfl
  | cons a as ih =>
      have ha := h a (List.mem_cons_self a as)
      simp only [List.find?_cons, ha]
      exact ih (fun x hx => h x (List.mem_cons_of_mem a hx))

/-- `find?` skips a prefix with no satisfying element. -/
theorem find?_append_of_none {α} {p : α → Bool} {l₁ l₂ : List α}
    (h : l₁.find? p = none) : (l₁ ++ l₂).find? p = l₂.find? p := by
  induction l₁ with
  | nil => rfl
  | cons a as ih =>
      simp only [List.cons_append, List.find?_cons] at h ⊢
      cases hp : p a with
      | true => simp [hp] at h
      | false =>
          simp only [hp, cond_false] at h ⊢
          exact ih h

/-- Appending a fresh element preserves `Nodup`. -/
theorem nodup_append_singleton {α} {l : List α} {a : α}
    (h : l.Nodup) (ha : a ∉ l) : (l ++ [a]).Nodup := by
  simp [List.nodup_append, h, ha]

/-- The cursor loop succeeds on a store whose documents all carry their
`category` and `published` fields, returning one response per document. -/
theorem notesToResponses_ok_of_wf :
    ∀ (l : List NoteModel), WellFormedDocs l = true →
      ∃ rs, notesToResponses l = .ok rs ∧ rs.length = l.length := by
  intro l
  induction l with
  | nil => intro _; exact ⟨[], rfl, rfl⟩
  | cons m ms ih =>
      intro h
      simp only [WellFormedDocs, List.all_cons, Bool.and_eq_true] at h
      obtain ⟨⟨hc, hp⟩, hms⟩ := h
      obtain ⟨c, hc'⟩ := Option.isSome_iff_exists.mp hc
      obtain ⟨p, hp'⟩ := Option.isSome_iff_exists.mp hp
      obtain ⟨rs, hrs, hlen⟩ := ih hms
      refine ⟨{ id := m.id.hex, title := m.title, content := m.content,
                category := c, published := p, createdAt := m.createdAt,
                updatedAt := m.updatedAt } :: rs, ?_, by simp [hlen]⟩
      simp [notesToResponses, doc_to_note, hc', hp', hrs]

/-! ### Claims -/

/-- Claim C7 (counterexample): a `MongoDataError` (the spec's
`DataAccessViolation`) is mapped by `handle_rejection` to HTTP 400 with
message "validation error", not to HTTP 500 as the claim states. -/
theorem claim_C7_counterexample :
    handle_rejection (.appError .MongoDataError) =
      (400, { status := "fail", message := "validation error" }) ∧
    (400 : Nat) ≠ 500 := ⟨rfl, by decide⟩

/-- Claim C7 (amended): failures classified as `MongoQueryError`
(QueryError), `MongoError` (ConnectionError) or `MongoSerializeBsonError`
(SerializationError) are mapped to HTTP 500 with a fixed generic message
that does not carry the underlying cause; `MongoDataError`
(DataAccessViolation) is instead mapped to HTTP 400 with the fixed
message "validation error". -/
theorem claim_C7_server_error_mapping :
    handle_rejection (.appError .MongoError) =
      (500, { status := "fail", message := "MongoDB error" }) ∧
    handle_rejection (.appError .MongoQueryError) =
      (500, { status := "fail", message := "Error during mongodb query" }) ∧
    handle_rejection (.appError .MongoSerializeBsonError) =
      (500, { status := "fail", message := "Error seserializing BSON" }) ∧
    handle_rejection (.appError .MongoDataError) =
      (400, { status := "fail", message := "validation error" }) :=
  ⟨rfl, rfl, rfl, rfl⟩

/-- Claim C4: for a syntactically valid id that matches no record,
`get_note` returns `Ok(None)` (no error) after exactly one store query,
and the handler maps it to HTTP 404; for a syntactically invalid id,
`get_note` fails with `InvalidIDError` before issuing any store query,
and `handle_rejection` maps it to HTTP 400 with a message echoing the
offending id. -/
theorem claim_C4_get_not_found_vs_invalid :
    (∀ (id : String) (oid : ObjectId) (env : Env) (s : StoreState),
      ObjectId.fromStr id = some oid →
      env.findFails = false →
      (∀ d ∈ s.docs, (d.id == oid) = false) →
      get_note id env s = (.ok none, 1) ∧
      get_note_handler id (.ok none) = .reply 404 (notFoundResponse id).toJson) ∧
    (∀ (id : String) (env : Env) (s : StoreState),
      ObjectId.fromStr id = none →
      get_note id env s = (.err (.InvalidIDError id), 0) ∧
      handle_rejection (.appError (.InvalidIDError id)) =
        (400, { status := "fail", message := id })) := by
  constructor
  · intro id oid env s h1 hf hall
    have hfind : s.docs.find? (fun d => d.id == oid) = none :=
      find?_eq_none_of_forall hall
    exact ⟨by simp [get_note, h1, hf, hfind], rfl⟩
  · intro id env s h1
    exact ⟨by simp [get_note, h1], rfl⟩

/-- Witness for C4: id "000000000000000000000000" is well-formed but
absent from the store (`Ok(None)`); id "not-an-id" is rejected with
`InvalidIDError` before any query, mapped to 400 echoing the id. -/
theorem claim_C4_witness :
    (ObjectId.fromStr "000000000000000000000000" = some ⟨"000000000000000000000000"⟩ ∧
     get_note "000000000000000000000000" wEnv wState = (.ok none, 1)) ∧
    (ObjectId.fromStr "not-an-id" = none ∧
     get_note "not-an-id" wEnv wState = (.err (.InvalidIDError "not-an-id"), 0) ∧
     handle_rejection (.appError (.InvalidIDError "not-an-id")) =
       (400, { status := "fail", message := "not-an-id" })) := by
  refine ⟨⟨rfl, ?_⟩, rfl, ?_, ?_⟩
  · exact (claim_C4_get_not_found_vs_invalid.1 "000000000000000000000000"
      ⟨"000000000000000000000000"⟩ wEnv wState rfl rfl
      (by intro d hd; simp [wState, wNoteA] at hd; subst hd; rfl)).1
  · exact (claim_C4_get_not_found_vs_invalid.2 "not-an-id" wEnv wState rfl).1
  · exact (claim_C4_get_not_found_vs_invalid.2 "not-an-id" wEnv wState rfl).2

/-- Claim C10: when the post-insert lookup of the newly inserted id
finds no document, `create_note` returns `Ok(None)`; the create handler
maps every `Ok` result to HTTP 201 whose body is the serialization of
the option — the JSON literal `null` in the `None` case — and has no
not-found branch. -/
theorem claim_C10_create_absent_201_null :
    (∀ (body : CreateNoteSchema) (env : Env) (s : StoreState),
      env.createIndexFails = false → env.insertFails = false →
      env.findFails = false → env.lookupMisses = true →
      s.docs.any (fun d => d.title == body.title) = false →
      s.docs.any (fun d => d.id == env.freshId) = false →
      (create_note body env s).1 = .ok none) ∧
    (∀ o : Option SingleNoteResponse,
      create_note_handler (.ok o) = .reply 201 (serializeOptSingle o)) ∧
    serializeOptSingle none = Json.null := by
  refine ⟨?_, fun o => rfl, rfl⟩
  intro body env s h1 h2 h3 h4 h5 h6
  simp [create_note, create_lookup, h1, h2, h3, h4, h5, h6]

/-- Witness for C10: a concrete create whose post-insert lookup misses
yields `Ok(None)`, and the handler replies 201 with JSON `null`. -/
theorem claim_C10_witness :
    (create_note ⟨"t1", "c1", none, none⟩ { wEnv with lookupMisses := true } wState).1 =
      .ok none ∧
    create_note_handler (.ok (none : Option SingleNoteResponse)) =
      .reply 201 Json.null := by
  constructor
  · exact claim_C10_create_absent_201_null.1 _ _ _ rfl rfl rfl rfl (by decide) (by decide)
  · rfl

/-- Claim C8: a create supplying only `title` and `content` succeeds
with the defaults `published = false` and `category = ""`, the id is the
store-generated one, both timestamps equal the creation time, and the
handler replies HTTP 201 with the single-note body. -/
theorem claim_C8_create_defaults :
    ∀ (title content : String) (env : Env) (s : StoreState),
      env.createIndexFails = false → env.insertFails = false →
      env.findFails = false → env.lookupMisses = false →
      s.docs.any (fun d => d.title == title) = false →
      s.docs.any (fun d => d.id == env.freshId) = false →
      (create_note ⟨title, content, none, none⟩ env s).1 =
        .ok (some { status := "success", data := { note :=
          { id := env.freshId.hex, title := title, content := content,
            category := "", published := false,
            createdAt := env.now, updatedAt := env.now } } }) ∧
      create_note_handler (create_note ⟨title, content, none, none⟩ env s).1 =
        .reply 201 (serializeOptSingle (some { status := "success", data := { note :=
          { id := env.freshId.hex, title := title, content := content,
            category := "", published := false,
            createdAt := env.now, updatedAt := env.now } } })) := by
  intro title content env s h1 h2 h3 h4 h5 h6
  have hfind : s.docs.find? (fun d => d.id == env.freshId) = none := by
    apply find?_eq_none_of_forall
    intro x hx
    have hx' := (List.any_eq_false.mp h6) x hx
    simpa using hx'
  have hmain : (create_note ⟨title, content, none, none⟩ env s).1 =
      .ok (some { status := "success", data := { note :=
        { id := env.freshId.hex, title := title, content := content,
          category := "", published := false,
          createdAt := env.now, updatedAt := env.now } } }) := by
    simp [create_note, create_lookup, newDocOf, h1, h2, h3, h4, h5, h6,
      find?_append_of_none hfind, doc_to_note]
  exact ⟨hmain, by rw [hmain]; rfl⟩

/-- Witness for C8: POST of `{"title":"t1","content":"c1"}` against the
one-note store succeeds with the defaults and a 201 reply. -/
theorem claim_C8_witness :
    (create_note ⟨"t1", "c1", none, none⟩ wEnv wState).1 =
      .ok (some { status := "success", data := { note :=
        { id := "bbbbbbbbbbbbbbbbbbbbbbbb", title := "t1", content := "c1",
          category := "", published := false,
          createdAt := 100, updatedAt := 100 } } }) := by
  exact (claim_C8_create_defaults "t1" "c1" wEnv wState rfl rfl rfl rfl
    (by decide) (by decide)).1

/-- Claim C2 (counterexample): updating only `category` at time 100 on a
note whose `updatedAt` is 5 returns the note with `updatedAt` still 5 —
not strictly greater than its previous value. `edit_note` builds its
`$set` document from the update-shape alone and never touches
`updatedAt`. -/
theorem claim_C2_counterexample :
    wEnv.now = 100 ∧ wNoteA.updatedAt = 5 ∧
    (edit_note "aaaaaaaaaaaaaaaaaaaaaaaa" ⟨none, none, some "b", none⟩ wEnv wState).1 =
      .ok (some { status := "success", data := { note :=
        { id := "aaaaaaaaaaaaaaaaaaaaaaaa", title := "t", content := "c",
          category := "b", published := false, createdAt := 1, updatedAt := 5 } } }) ∧
    ¬ (5 : Nat) > 5 :=
  ⟨rfl, rfl, rfl, by decide⟩

/-- Claim C2 (amended): a successful update never refreshes `updatedAt`:
the returned note's `updatedAt` (and `createdAt`) equal their values
before the update, whatever fields the update-shape carries. -/
theorem claim_C2_updatedAt_not_refreshed :
    ∀ (id : String) (oid : ObjectId) (body : UpdateNoteSchema) (env : Env)
      (s : StoreState) (m : NoteModel) (c : String) (p : Bool),
      ObjectId.fromStr id = some oid →
      env.updateFails = false →
      s.docs.find? (fun d => d.id == oid) = some m →
      (s.hasTitleIndex &&
        s.docs.any (fun d => d.id != m.id && d.title == (applyUpdate body m).title)) = false →
      m.category = some c → m.published = some p →
      ∃ nr, (edit_note id body env s).1 =
          .ok (some { status := "success", data := { note := nr } }) ∧
        nr.updatedAt = m.updatedAt ∧ nr.createdAt = m.createdAt := by
  intro id oid body env s m c p h1 h2 h3 h4 hc hp
  refine ⟨{ id := m.id.hex, title := body.title.getD m.title,
            content := body.content.getD m.content,
            category := body.category.getD c, published := body.published.getD p,
            createdAt := m.createdAt, updatedAt := m.updatedAt }, ?_, rfl, rfl⟩
  have hcat : (applyUpdate body m).category = some (body.category.getD c) := by
    cases hb : body.category <;> simp [applyUpdate, hc, hb]
  have hpub : (applyUpdate body m).published = some (body.published.getD p) := by
    cases hb : body.published <;> simp [applyUpdate, hp, hb]
  have h4p : ¬(s.hasTitleIndex = true ∧
      ∃ x ∈ s.docs, ¬x.id = m.id ∧ x.title = body.title.getD m.title) := by
    rintro ⟨hidx, x, hxmem, hxid, hxtitle⟩
    rw [hidx, Bool.true_and] at h4
    have hx := (List.any_eq_false.mp h4) x hxmem
    apply hx
    simp [hxid, hxtitle, applyUpdate]
  simp only [applyUpdate] at hcat hpub
  simp [edit_note, edit_result, h1, h2, h3, h4p, doc_to_note, applyUpdate, hcat, hpub]

/-- Witness for C2 (amended theorem): the concrete category-only update
returns a note whose `updatedAt` equals its previous value. -/
theorem claim_C2_witness :
    ∃ nr, (edit_note "aaaaaaaaaaaaaaaaaaaaaaaa" ⟨none, none, some "b", none⟩ wEnv wState).1 =
        .ok (some { status := "success", data := { note := nr } }) ∧
      nr.updatedAt = wNoteA.updatedAt ∧ nr.createdAt = wNoteA.createdAt := by
  exact claim_C2_updatedAt_not_refreshed "aaaaaaaaaaaaaaaaaaaaaaaa" ⟨"aaaaaaaaaaaaaaaaaaaaaaaa"⟩
    ⟨none, none, some "b", none⟩ wEnv wState wNoteA "a" false rfl rfl rfl rfl rfl rfl

/-- Claim C3: an update overwrites exactly the fields present in the
update-shape; absent fields — including the timestamps, never part of
the `$set` document — keep their previous values. -/
theorem claim_C3_partial_update_frame :
    ∀ (id : String) (oid : ObjectId) (body : UpdateNoteSchema) (env : Env)
      (s : StoreState) (m : NoteModel) (c : String) (p : Bool),
      ObjectId.fromStr id = some oid →
      env.updateFails = false →
      s.docs.find? (fun d => d.id == oid) = some m →
      (s.hasTitleIndex &&
        s.docs.any (fun d => d.id != m.id && d.title == (applyUpdate body m).title)) = false →
      m.category = some c → m.published = some p →
      (edit_note id body env s).1 =
        .ok (some { status := "success", data := { note :=
          { id := m.id.hex,
            title := body.title.getD m.title,
            content := body.content.getD m.content,
            category := body.category.getD c,
            published := body.published.getD p,
            createdAt := m.createdAt,
            updatedAt := m.updatedAt } } }) := by
  intro id oid body env s m c p h1 h2 h3 h4 hc hp
  have hcat : (applyUpdate body m).category = some (body.category.getD c) := by
    cases hb : body.category <;> simp [applyUpdate, hc, hb]
  have hpub : (applyUpdate body m).published = some (body.published.getD p) := by
    cases hb : body.published <;> simp [applyUpdate, hp, hb]
  have h4p : ¬(s.hasTitleIndex = true ∧
      ∃ x ∈ s.docs, ¬x.id = m.id ∧ x.title = body.title.getD m.title) := by
    rintro ⟨hidx, x, hxmem, hxid, hxtitle⟩
    rw [hidx, Bool.true_and] at h4
    have hx := (List.any_eq_false.mp h4) x hxmem
    apply hx
    simp [hxid, hxtitle, applyUpdate]
  simp only [applyUpdate] at hcat hpub
  simp [edit_note, edit_result, h1, h2, h3, h4p, doc_to_note, applyUpdate, hcat, hpub]

/-- Witness for C3: updating only `category` from "a" to "b" leaves
`title`, `content` and the timestamps unchanged. -/
theorem claim_C3_witness :
    (edit_note "aaaaaaaaaaaaaaaaaaaaaaaa" ⟨none, none, some "b", none⟩ wEnv wState).1 =
      .ok (some { status := "success", data := { note :=
        { id := "aaaaaaaaaaaaaaaaaaaaaaaa", title := "t", content := "c",
          category := "b", published := false, createdAt := 1, updatedAt := 5 } } }) := by
  exact claim_C3_partial_update_frame "aaaaaaaaaaaaaaaaaaaaaaaa" ⟨"aaaaaaaaaaaaaaaaaaaaaaaa"⟩
    ⟨none, none, some "b", none⟩ wEnv wState wNoteA "a" false rfl rfl rfl rfl rfl rfl

/-- Claim C5: for every positive `limit` and `page ≥ 1`, `fetch_notes`
skips exactly `(page-1)*limit` documents and returns at most `limit`
notes — precisely the skipped-then-truncated slice of the store; a page
beyond the data yields an empty list, not an error. -/
theorem claim_C5_pagination :
    ∀ (limit page : Int) (env : Env) (s : StoreState),
      0 < limit → 1 ≤ page →
      env.findFails = false → env.cursorItemFails = false →
      WellFormedDocs s.docs = true →
      ∃ r, fetch_notes limit page env s = .ok r ∧
        r.status = "success" ∧
        r.results = r.notes.length ∧
        notesToResponses ((s.docs.drop ((page - 1) * limit).toNat).take limit.toNat) =
          .ok r.notes ∧
        r.notes.length = min limit.toNat (s.docs.length - ((page - 1) * limit).toNat) ∧
        (s.docs.length ≤ ((page - 1) * limit).toNat → r.notes = []) := by
  intro limit page env s hl hp hf hcf hwf
  have h0 : 0 ≤ (page - 1) * limit := mul_nonneg (by omega) (le_of_lt hl)
  have hskip : ¬ ((page - 1) * limit < 0) := by omega
  have hl0 : ¬ limit = 0 := by omega
  have habs : limit.natAbs = limit.toNat := by omega
  have hwf' : WellFormedDocs
      ((s.docs.drop ((page - 1) * limit).toNat).take limit.toNat) = true := by
    rw [WellFormedDocs, List.all_eq_true] at hwf ⊢
    intro x hx
    exact hwf x (List.drop_subset _ _ (List.take_subset _ _ hx))
  obtain ⟨rs, hrs, hlen⟩ := notesToResponses_ok_of_wf _ hwf'
  refine ⟨⟨"success", rs.length, rs⟩, ?_, rfl, rfl, hrs, ?_, ?_⟩
  · simp [fetch_notes, hskip, hf, hcf, mongoFind, hl0, habs, hrs]
  · simp [hlen, List.length_take, List.length_drop]
  · intro hle
    have hnil : (s.docs.drop ((page - 1) * limit).toNat).take limit.toNat = [] := by
      rw [List.drop_eq_nil_of_le hle, List.take_nil]
    rw [hnil] at hrs
    simpa [notesToResponses] using hrs.symm

/-- Witness for C5: with 15 stored notes and `limit = 10`, page 1 yields
10 notes, page 2 yields 5, page 3 yields 0 (no error). -/
theorem claim_C5_witness :
    (∃ r, fetch_notes 10 1 wEnv ⟨pageDocs, true⟩ = .ok r ∧ r.notes.length = 10) ∧
    (∃ r, fetch_notes 10 2 wEnv ⟨pageDocs, true⟩ = .ok r ∧ r.notes.length = 5) ∧
    (∃ r, fetch_notes 10 3 wEnv ⟨pageDocs, true⟩ = .ok r ∧ r.notes = []) := by
  refine ⟨?_, ?_, ?_⟩
  · obtain ⟨r, h1, _, _, _, h5, _⟩ :=
      claim_C5_pagination 10 1 wEnv ⟨pageDocs, true⟩ (by decide) (by decide) rfl rfl (by decide)
    exact ⟨r, h1, by rw [h5]; decide⟩
  · obtain ⟨r, h1, _, _, _, h5, _⟩ :=
      claim_C5_pagination 10 2 wEnv ⟨pageDocs, true⟩ (by decide) (by decide) rfl rfl (by decide)
    exact ⟨r, h1, by rw [h5]; decide⟩
  · obtain ⟨r, h1, _, _, _, _, h6⟩ :=
      claim_C5_pagination 10 3 wEnv ⟨pageDocs, true⟩ (by decide) (by decide) rfl rfl (by decide)
    exact ⟨r, h1, h6 (by decide)⟩

/-- After erasing the first (and, ids being distinct, only) document
with a given id, no document with that id remains. -/
theorem any_eraseP_eq_false {oid : ObjectId} :
    ∀ {l : List NoteModel}, (l.map (fun d => d.id)).Nodup →
      ((l.eraseP (fun d => d.id == oid)).any (fun d => d.id == oid)) = false := by
  intro l
  induction l with
  | nil => intro _; rfl
  | cons d ds ih =>
      intro hn
      rw [List.map_cons, List.nodup_cons] at hn
      obtain ⟨hd_notin, hn'⟩ := hn
      cases hd : (d.id == oid) with
      | true =>
          have hdeq : d.id = oid := by simpa using hd
          simp only [List.eraseP_cons, hd, cond_true]
          rw [List.any_eq_false]
          intro x hx
          simp only [beq_iff_eq]
          intro hxeq
          exact hd_notin (by rw [hdeq, ← hxeq]; exact List.mem_map_of_mem _ hx)
      | false =>
          simp only [List.eraseP_cons, hd, cond_false]
          simp [List.any_cons, hd, ih hn']

/-- Claim C6: for a well-formed id, `delete_note` succeeds exactly when
one record was removed (handler: HTTP 204) and returns `Ok(None)` when
zero records were affected (handler: HTTP 404, not an error); deleting
the same id twice succeeds the first time and yields 404 the second. -/
theorem claim_C6_delete_idempotence :
    ∀ (id : String) (oid : ObjectId) (env : Env) (s : StoreState),
      ObjectId.fromStr id = some oid →
      env.deleteFails = false →
      (s.docs.map (fun d => d.id)).Nodup →
      (s.docs.any (fun d => d.id == oid) = true →
        (delete_note id env s).1 = .ok (some ()) ∧
        s.docs.length = (delete_note id env s).2.docs.length + 1 ∧
        delete_note_handler id (delete_note id env s).1 = .reply 204 (Json.str "") ∧
        (delete_note id env (delete_note id env s).2).1 = .ok none ∧
        delete_note_handler id (delete_note id env (delete_note id env s).2).1 =
          .reply 404 (notFoundResponse id).toJson) ∧
      (s.docs.any (fun d => d.id == oid) = false →
        (delete_note id env s).1 = .ok none ∧
        (delete_note id env s).2 = s ∧
        delete_note_handler id (delete_note id env s).1 =
          .reply 404 (notFoundResponse id).toJson) := by
  intro id oid env s h1 h2 hnodup
  constructor
  · intro hany
    have hstate : delete_note id env s =
        (.ok (some ()), { s with docs := s.docs.eraseP (fun d => d.id == oid) }) := by
      simp [delete_note, h1, h2, hany]
    obtain ⟨x, hxmem, hxp⟩ := List.any_eq_true.mp hany
    have hlen : (s.docs.eraseP (fun d => d.id == oid)).length + 1 = s.docs.length :=
      List.length_eraseP_add_one hxmem hxp
    have hany2 : ((s.docs.eraseP (fun d => d.id == oid)).any
        (fun d => d.id == oid)) = false := any_eraseP_eq_false hnodup
    have hsecond : (delete_note id env { s with
        docs := s.docs.eraseP (fun d => d.id == oid) }).1 = .ok none := by
      simp [delete_note, h1, h2, hany2]
    refine ⟨by rw [hstate], ?_, by rw [hstate]; rfl, ?_, ?_⟩
    · rw [hstate]; exact hlen.symm
    · rw [hstate]; exact hsecond
    · rw [hstate, hsecond]; rfl
  · intro hany
    have hstate : delete_note id env s = (.ok none, s) := by
      simp [delete_note, h1, h2, hany]
    exact ⟨by rw [hstate], by rw [hstate], by rw [hstate]; rfl⟩

/-- Witness for C6: deleting the stored note succeeds with 204; deleting
the same id again on the resulting store yields `Ok(None)` and 404. -/
theorem claim_C6_witness :
    (delete_note "aaaaaaaaaaaaaaaaaaaaaaaa" wEnv wState).1 = .ok (some ()) ∧
    delete_note_handler "aaaaaaaaaaaaaaaaaaaaaaaa"
      (delete_note "aaaaaaaaaaaaaaaaaaaaaaaa" wEnv wState).1 = .reply 204 (Json.str "") ∧
    (delete_note "aaaaaaaaaaaaaaaaaaaaaaaa" wEnv
      (delete_note "aaaaaaaaaaaaaaaaaaaaaaaa" wEnv wState).2).1 = .ok none ∧
    delete_note_handler "aaaaaaaaaaaaaaaaaaaaaaaa"
      (delete_note "aaaaaaaaaaaaaaaaaaaaaaaa" wEnv
        (delete_note "aaaaaaaaaaaaaaaaaaaaaaaa" wEnv wState).2).1 =
      .reply 404 (notFoundResponse "aaaaaaaaaaaaaaaaaaaaaaaa").toJson := by
  obtain ⟨hfirst, _, h204, hsecond, h404⟩ :=
    (claim_C6_delete_idempotence "aaaaaaaaaaaaaaaaaaaaaaaa" ⟨"aaaaaaaaaaaaaaaaaaaaaaaa"⟩
      wEnv wState rfl rfl (by decide)).1 (by decide)
  exact ⟨hfirst, h204, hsecond, h404⟩

/-- Claim C9 (counterexample): three concrete executions end in a panic
rather than a recovered error: `create_note` when index creation fails
(`expect("error creating index!")`), `fetch_notes` with `page = 0`
(negative skip, `u64::try_from(..).unwrap()`), and `fetch_notes` when
the cursor yields an error item (`doc.unwrap()`). -/
theorem claim_C9_counterexample :
    (create_note ⟨"t1", "c1", none, none⟩ { wEnv with createIndexFails := true } wState).1 =
      .fault "error creating index!" ∧
    fetch_notes 10 0 wEnv wState = .fault "u64::try_from on negative skip" ∧
    fetch_notes 10 1 { wEnv with cursorItemFails := true } wState =
      .fault "cursor item unwrap" :=
  ⟨rfl, rfl, rfl⟩

/-- Claim C9 (amended): every failure surfaced as a classified `Error`
value is recovered by `handle_rejection` into a JSON envelope with a
status code in {400, 404, 405, 409, 500}; but the error branches of
index creation, skip computation, and cursor iteration are left as
panics (`expect`/`unwrap`), not recovered. -/
theorem claim_C9_fault_boundaries :
    (∀ r : Rejection, (handle_rejection r).1 = 400 ∨ (handle_rejection r).1 = 404 ∨
      (handle_rejection r).1 = 405 ∨ (handle_rejection r).1 = 409 ∨
      (handle_rejection r).1 = 500) ∧
    (∀ (body : CreateNoteSchema) (env : Env) (s : StoreState),
      env.createIndexFails = true →
      (create_note body env s).1 = .fault "error creating index!") ∧
    (∀ (limit page : Int) (env : Env) (s : StoreState),
      (page - 1) * limit < 0 →
      fetch_notes limit page env s = .fault "u64::try_from on negative skip") ∧
    (∀ (limit page : Int) (env : Env) (s : StoreState),
      0 ≤ (page - 1) * limit → env.findFails = false → env.cursorItemFails = true →
      fetch_notes limit page env s = .fault "cursor item unwrap") := by
  refine ⟨?_, ?_, ?_, ?_⟩
  · intro r
    cases r with
    | notFoundRoute => simp [handle_rejection]
    | bodyDeserializeError => simp [handle_rejection]
    | appError e => cases e <;> simp [handle_rejection]
    | methodNotAllowed => simp [handle_rejection]
    | other => simp [handle_rejection]
  · intro body env s h1
    simp [create_note, h1]
  · intro limit page env s h
    simp [fetch_notes, h]
  · intro limit page env s h0 hf hc
    have hneg : ¬ ((page - 1) * limit < 0) := by omega
    simp [fetch_notes, hneg, hf, hc]

/-- Witness for C9 (amended theorem): the classified-error recovery and
the three panic branches, at concrete inputs. -/
theorem claim_C9_witness :
    (handle_rejection (.appError .MongoQueryError)).1 = 500 ∧
    (create_note ⟨"t2", "c2", none, none⟩ { wEnv with createIndexFails := true } wState).1 =
      .fault "error creating index!" ∧
    ((0 : Int) - 1) * 10 < 0 ∧
    fetch_notes 10 0 { wEnv with now := 1 } wState = .fault "u64::try_from on negative skip" ∧
    fetch_notes 10 2 { wEnv with cursorItemFails := true } wState =
      .fault "cursor item unwrap" := by
  refine ⟨rfl, ?_, by decide, ?_, ?_⟩
  · exact claim_C9_fault_boundaries.2.1 _ _ _ rfl
  · exact claim_C9_fault_boundaries.2.2.1 10 0 _ wState (by decide)
  · exact claim_C9_fault_boundaries.2.2.2 10 2 _ wState (by decide) rfl rfl

/-- `setFirst` with a replacement carrying the matched id leaves the id
sequence of the store unchanged. -/
theorem map_id_setFirst {oid : ObjectId} {m' : NoteModel} (h : m'.id = oid) :
    ∀ l : List NoteModel,
      (setFirst oid m' l).map (fun d => d.id) = l.map (fun d => d.id) := by
  intro l
  induction l with
  | nil => rfl
  | cons d ds ih =>
      cases hd : (d.id == oid) with
      | true =>
          have hdeq : d.id = oid := by simpa using hd
          simp [setFirst, hd, h, hdeq]
      | false => simp [setFirst, hd, ih]

/-- Any title in `setFirst`'s result is the replacement's title or a
title already present. -/
theorem mem_map_title_setFirst {oid : ObjectId} {m' : NoteModel} {x : String} :
    ∀ {l : List NoteModel},
      x ∈ (setFirst oid m' l).map (fun d => d.title) →
      x = m'.title ∨ x ∈ l.map (fun d => d.title) := by
  intro l
  induction l with
  | nil => intro h; simp [setFirst] at h
  | cons d ds ih =>
      intro hmem
      cases hd : (d.id == oid) with
      | true =>
          simp only [setFirst, hd, if_true] at hmem
          rcases List.mem_map.mp hmem with ⟨y, hy, hyt⟩
          rcases List.mem_cons.mp hy with hy1 | hy2
          · exact Or.inl (by rw [← hyt, hy1])
          · exact Or.inr (by
              rw [List.map_cons]
              exact List.mem_cons_of_mem _ (hyt ▸ List.mem_map_of_mem _ hy2))
      | false =>
          simp only [setFirst, hd, Bool.false_eq_true, if_false, List.map_cons,
            List.mem_cons] at hmem
          rcases hmem with h1 | h2
          · exact Or.inr (by rw [List.map_cons, h1]; exact List.mem_cons_self _ _)
          · rcases ih h2 with h3 | h4
            · exact Or.inl h3
            · exact Or.inr (by rw [List.map_cons]; exact List.mem_cons_of_mem _ h4)

/-- Replacing the first document matching an id by a document with the
same id and a title no *other* document holds preserves distinctness of
the stored titles. -/
theorem nodup_titles_setFirst {oid : ObjectId} {m m' : NoteModel} (_hmid : m'.id = m.id) :
    ∀ {l : List NoteModel},
      (l.map (fun d => d.id)).Nodup →
      (l.map (fun d => d.title)).Nodup →
      l.find? (fun d => d.id == oid) = some m →
      (∀ d ∈ l, d.id = m.id ∨ d.title ≠ m'.title) →
      ((setFirst oid m' l).map (fun d => d.title)).Nodup := by
  intro l
  induction l with
  | nil => intro _ _ hfind _; simp at hfind
  | cons d ds ih =>
      intro hid htitle hfind hall
      rw [List.map_cons, List.nodup_cons] at hid htitle
      obtain ⟨hid_notin, hid'⟩ := hid
      obtain ⟨htitle_notin, htitle'⟩ := htitle
      cases hd : (d.id == oid) with
      | true =>
          have hmd : m = d := by
            rw [@List.find?_cons_of_pos _ (fun d => d.id == oid) d ds hd] at hfind
            exact (Option.some.inj hfind).symm
          subst hmd
          have hsf : setFirst oid m' (m :: ds) = m' :: ds := by simp [setFirst, hd]
          rw [hsf, List.map_cons, List.nodup_cons]
          refine ⟨?_, htitle'⟩
          intro hmem
          obtain ⟨x, hxmem, hxtitle⟩ := List.mem_map.mp hmem
          rcases hall x (List.mem_cons_of_mem m hxmem) with hxid | hxtit
          · exact hid_notin (by rw [← hxid]; exact List.mem_map_of_mem _ hxmem)
          · exact hxtit hxtitle
      | false =>
          have hsf : setFirst oid m' (d :: ds) = d :: setFirst oid m' ds := by
            simp [setFirst, hd]
          have hfind' : ds.find? (fun d => d.id == oid) = some m := by
            rwa [@List.find?_cons_of_neg _ (fun d => d.id == oid) d ds (by simp [hd])] at hfind
          have hmoid : m.id = oid := by simpa using List.find?_some hfind'
          have hdne : ¬ d.id = m.id := by
            intro hcontra
            rw [hcontra, hmoid] at hd
            simp at hd
          rw [hsf, List.map_cons, List.nodup_cons]
          constructor
          · intro hmem
            rcases mem_map_title_setFirst hmem with heq | hmem'
            · rcases hall d (List.mem_cons_self d ds) with hdid | hdtit
              · exact hdne hdid
              · exact hdtit heq
            · exact htitle_notin hmem'
          · exact ih hid' htitle' hfind' (fun x hx => hall x (List.mem_cons_of_mem d hx))

/-- `create_note` preserves the store invariant: the unique indexes
reject any insert that would duplicate a title (or id), and a successful
insert appends a fresh title and id. -/
theorem storeInv_create (body : CreateNoteSchema) (env : Env) (s : StoreState)
    (hInv : StoreInv s) : StoreInv (create_note body env s).2 := by
  unfold StoreInv at hInv ⊢
  obtain ⟨hid, htitle, hidx⟩ := hInv
  by_cases h1 : env.createIndexFails = true
  · have hstate : (create_note body env s).2 = s := by simp [create_note, h1]
    rw [hstate]; exact ⟨hid, htitle, hidx⟩
  · rw [Bool.not_eq_true] at h1
    by_cases h2 : (s.docs.any (fun d => d.title == body.title) ||
        s.docs.any (fun d => d.id == env.freshId)) = true
    · have hstate : (create_note body env s).2 = { s with hasTitleIndex := true } := by
        simp only [create_note, h1, Bool.false_eq_true, if_false]
        simp [h2]
      rw [hstate]; exact ⟨hid, htitle, fun _ => rfl⟩
    · rw [Bool.not_eq_true, Bool.or_eq_false_iff] at h2
      obtain ⟨h2a, h2b⟩ := h2
      by_cases h3 : env.insertFails = true
      · have hstate : (create_note body env s).2 = { s with hasTitleIndex := true } := by
          simp [create_note, h1, h2a, h2b, h3]
        rw [hstate]; exact ⟨hid, htitle, fun _ => rfl⟩
      · rw [Bool.not_eq_true] at h3
        have hstate : (create_note body env s).2 =
            { docs := s.docs ++ [newDocOf body env], hasTitleIndex := true } := by
          simp [create_note, h1, h2a, h2b, h3]
        rw [hstate]
        refine ⟨?_, ?_, fun _ => rfl⟩
        · rw [List.map_append]
          apply nodup_append_singleton hid
          intro hmem
          obtain ⟨x, hxmem, hxid⟩ := List.mem_map.mp hmem
          have hx := List.any_eq_false.mp h2b x hxmem
          exact hx (by simp [newDocOf] at hxid ⊢; exact hxid)
        · rw [List.map_append]
          apply nodup_append_singleton htitle
          intro hmem
          obtain ⟨x, hxmem, hxtitle⟩ := List.mem_map.mp hmem
          have hx := List.any_eq_false.mp h2a x hxmem
          exact hx (by simp [newDocOf] at hxtitle ⊢; exact hxtitle)

/-- `edit_note` preserves the store invariant: `$set` never changes the
`_id`, and the unique `title` index rejects an update that would
duplicate another document's title. -/
theorem storeInv_edit (id : String) (body : UpdateNoteSchema) (env : Env) (s : StoreState)
    (hInv : StoreInv s) : StoreInv (edit_note id body env s).2 := by
  unfold StoreInv at hInv ⊢
  obtain ⟨hid, htitle, hidx⟩ := hInv
  cases hfs : ObjectId.fromStr id with
  | none =>
      have hstate : (edit_note id body env s).2 = s := by simp [edit_note, hfs]
      rw [hstate]; exact ⟨hid, htitle, hidx⟩
  | some oid =>
      by_cases h2 : env.updateFails = true
      · have hstate : (edit_note id body env s).2 = s := by simp [edit_note, hfs, h2]
        rw [hstate]; exact ⟨hid, htitle, hidx⟩
      · rw [Bool.not_eq_true] at h2
        cases hfind : s.docs.find? (fun d => d.id == oid) with
        | none =>
            have hstate : (edit_note id body env s).2 = s := by
              simp [edit_note, hfs, h2, hfind]
            rw [hstate]; exact ⟨hid, htitle, hidx⟩
        | some m =>
            have hiff : (s.hasTitleIndex && s.docs.any fun d =>
                  d.id != m.id && d.title == (applyUpdate body m).title) = true ↔
                (s.hasTitleIndex = true ∧ ∃ x ∈ s.docs,
                  ¬x.id = m.id ∧ x.title = (applyUpdate body m).title) := by
              simp [List.any_eq_true]
            by_cases h3 : (s.hasTitleIndex && s.docs.any fun d =>
                d.id != m.id && d.title == (applyUpdate body m).title) = true
            · have h3p := hiff.mp h3
              have hstate : (edit_note id body env s).2 = s := by
                simp [edit_note, hfs, h2, hfind, h3p]
              rw [hstate]; exact ⟨hid, htitle, hidx⟩
            · have h3p : ¬(s.hasTitleIndex = true ∧ ∃ x ∈ s.docs,
                  ¬x.id = m.id ∧ x.title = (applyUpdate body m).title) := by
                rw [← hiff]; simp [h3]
              have hstate : (edit_note id body env s).2 =
                  { s with docs := setFirst oid (applyUpdate body m) s.docs } := by
                simp [edit_note, hfs, h2, hfind, h3p]
              rw [hstate]
              have hmoid : m.id = oid := by simpa using List.find?_some hfind
              have hmid' : (applyUpdate body m).id = m.id := rfl
              have hidx' : s.hasTitleIndex = true := by
                apply hidx
                intro hnil
                rw [hnil] at hfind
                simp at hfind
              have hany : (s.docs.any fun d =>
                  d.id != m.id && d.title == (applyUpdate body m).title) = false := by
                rw [Bool.not_eq_true, hidx', Bool.true_and] at h3
                exact h3
              have hall : ∀ d ∈ s.docs, d.id = m.id ∨
                  d.title ≠ (applyUpdate body m).title := by
                intro d hd
                have hnd := List.any_eq_false.mp hany d hd
                by_cases hdi : d.id = m.id
                · exact Or.inl hdi
                · refine Or.inr (fun htit => hnd ?_)
                  simp [hdi, htit]
              refine ⟨?_, ?_, fun _ => hidx'⟩
              · rw [map_id_setFirst (by rw [hmid', hmoid]) s.docs]
                exact hid
              · exact nodup_titles_setFirst hmid' hid htitle hfind hall

/-- `delete_note` preserves the store invariant: removal keeps ids and
titles pairwise distinct. -/
theorem storeInv_delete (id : String) (env : Env) (s : StoreState)
    (hInv : StoreInv s) : StoreInv (delete_note id env s).2 := by
  unfold StoreInv at hInv ⊢
  obtain ⟨hid, htitle, hidx⟩ := hInv
  cases hfs : ObjectId.fromStr id with
  | none =>
      have hstate : (delete_note id env s).2 = s := by simp [delete_note, hfs]
      rw [hstate]; exact ⟨hid, htitle, hidx⟩
  | some oid =>
      by_cases h2 : env.deleteFails = true
      · have hstate : (delete_note id env s).2 = s := by simp [delete_note, hfs, h2]
        rw [hstate]; exact ⟨hid, htitle, hidx⟩
      · rw [Bool.not_eq_true] at h2
        by_cases h3 : (s.docs.any fun d => d.id == oid) = true
        · have hstate : (delete_note id env s).2 =
              { s with docs := s.docs.eraseP (fun d => d.id == oid) } := by
            simp [delete_note, hfs, h2, h3]
          rw [hstate]
          have hsub := List.eraseP_sublist (p := fun d => d.id == oid) s.docs
          refine ⟨List.Nodup.sublist (hsub.map _) hid,
                  List.Nodup.sublist (hsub.map _) htitle, ?_⟩
          intro hne
          apply hidx
          intro hnil
          apply hne
          show List.eraseP (fun d => d.id == oid) s.docs = []
          rw [hnil]
          rfl
        · have hstate : (delete_note id env s).2 = s := by
            simp [delete_note, hfs, h2, h3]
          rw [hstate]; exact ⟨hid, htitle, hidx⟩

/-- Claim C1: creating a note whose title already exists fails with
`MongoDuplicateError` (mapped by `handle_rejection` to HTTP 409) and
leaves the stored documents unchanged; and the store invariant — at most
one document per title (and per id), with the unique `title` index in
place once any document exists — is preserved by create, update and
delete (fetch does not write). -/
theorem claim_C1_title_unique :
    (∀ (body : CreateNoteSchema) (env : Env) (s : StoreState),
      env.createIndexFails = false →
      s.docs.any (fun d => d.title == body.title) = true →
      (create_note body env s).1 = .err .MongoDuplicateError ∧
      (create_note body env s).2.docs = s.docs ∧
      handle_rejection (.appError .MongoDuplicateError) =
        (409, { status := "fail", message := "Duplicate key error" })) ∧
    (∀ (body : CreateNoteSchema) (env : Env) (s : StoreState),
      StoreInv s → StoreInv (create_note body env s).2) ∧
    (∀ (id : String) (body : UpdateNoteSchema) (env : Env) (s : StoreState),
      StoreInv s → StoreInv (edit_note id body env s).2) ∧
    (∀ (id : String) (env : Env) (s : StoreState),
      StoreInv s → StoreInv (delete_note id env s).2) := by
  refine ⟨?_, storeInv_create, storeInv_edit, storeInv_delete⟩
  intro body env s h1 hdup
  refine ⟨?_, ?_, rfl⟩
  · simp [create_note, h1, hdup]
  · simp [create_note, h1, hdup]

/-- Witness for C1: a second create with the already-stored title "t"
fails with the duplicate error, leaves the store intact, maps to 409,
and the store invariant holds afterwards. -/
theorem claim_C1_witness :
    (wState.docs.any (fun d => d.title == "t") = true ∧
     (create_note ⟨"t", "c2", none, none⟩ wEnv wState).1 = .err .MongoDuplicateError ∧
     (create_note ⟨"t", "c2", none, none⟩ wEnv wState).2.docs = wState.docs ∧
     handle_rejection (.appError .MongoDuplicateError) =
       (409, { status := "fail", message := "Duplicate key error" })) ∧
    StoreInv (create_note ⟨"t", "c2", none, none⟩ wEnv wState).2 := by
  have h := claim_C1_title_unique
  refine ⟨⟨by decide, ?_, ?_, ?_⟩, ?_⟩
  · exact (h.1 ⟨"t", "c2", none, none⟩ wEnv wState rfl (by decide)).1
  · exact (h.1 ⟨"t", "c2", none, none⟩ wEnv wState rfl (by decide)).2.1
  · exact (h.1 ⟨"t", "c2", none, none⟩ wEnv wState rfl (by decide)).2.2
  · exact h.2.1 ⟨"t", "c2", none, none⟩ wEnv wState ⟨by decide, by decide, fun _ => rfl⟩

end NotesApp
